import Mathlib

/-!
Shallow embedding of the delivery-simulation core of the digital-twin backend
(`backend/routers/simulation.py`): city-metric aggregation, the object-impact
lookup, per-hour route interpolation, haversine distance, and the hour-stepped
simulation engine.  Python floats are modelled exactly: capacities, demands and
the derived metric percentages as rationals, geographic coordinates and
accumulated distances as real numbers.  Python `round(x, 2)` is modelled as
rounding `100*x` to the nearest integer (ties do not arise in any statement
below).  Mutable locals of the engine become explicitly threaded state; the
`dict` keyed by vehicle id becomes a function `String → Option Location`.
-/

namespace DigitalTwin

/-- `round(x, 2)` on rationals: nearest multiple of 1/100. -/
def round2Q (x : ℚ) : ℚ := ((round (100 * x) : ℤ) : ℚ) / 100

/-- `round(x, 2)` on reals (used where the accumulator is a real distance). -/
noncomputable def round2R (x : ℝ) : ℝ := ((round (100 * x) : ℤ) : ℝ) / 100

/-- Python `int(q)` on an exact rational: truncation toward zero. -/
def truncQ (q : ℚ) : ℤ := if 0 ≤ q then ⌊q⌋ else ⌈q⌉

/-- `Location` (models.py): a latitude/longitude pair in degrees. -/
structure Location where
  lat : ℝ
  lng : ℝ

instance : Inhabited Location := ⟨⟨0, 0⟩⟩

/-- `Vehicle` (models.py).  `capacity` is exact; the route is an ordered list
of waypoints and is never reassigned by the engine. -/
structure Vehicle where
  id : String
  name : String
  capacity : ℚ
  current_location : Location
  status : String
  route : List Location

instance : Inhabited Vehicle := ⟨⟨"", "", 0, default, "idle", []⟩⟩

/-- `DeliveryPoint` (models.py); the advisory time-window strings are omitted
(never read by the core). -/
structure DeliveryPoint where
  id : String
  name : String
  location : Location
  demand : ℚ

/-- `SimulationRequest` (models.py); `start_time` is modelled as an integer
hour count since an arbitrary epoch (only ever shifted by whole hours). -/
structure SimulationRequest where
  vehicles : List Vehicle
  delivery_points : List DeliveryPoint
  start_time : ℤ
  duration_hours : ℤ

/-- Result record of `analyze_city_state`. -/
structure CityMetrics where
  ecology : ℚ
  traffic_load : ℚ
  social_score : ℚ
deriving DecidableEq

/-- The per-tick metrics mapping built inside `run_simulation`. -/
structure StepMetrics where
  hour : ℕ
  total_distance : ℝ
  vehicles_moving : ℕ
  vehicles_completed : ℕ
  vehicles_idle : ℕ
  ecology : ℚ
  traffic_load : ℚ
  social_score : ℚ

/-- `SimulationStep` (models.py). -/
structure SimulationStep where
  timestamp : ℤ
  vehicles : List Vehicle
  metrics : StepMetrics

instance : Inhabited SimulationStep :=
  ⟨⟨0, [], ⟨0, 0, 0, 0, 0, 0, 0, 0⟩⟩⟩

/-- `SimulationResponse` (models.py).  `simulation_id` is a fresh uuid in the
code; its value is opaque and irrelevant here, so it is modelled as `""`. -/
structure SimulationResponse where
  simulation_id : String
  steps : List SimulationStep
  total_distance : ℝ
  total_time : ℚ
  efficiency : ℚ

/-- Python `s.strip().lower()`, written by structural recursion over the
character list (the core-library `String.trim`/`String.toLower` are
well-founded recursions the kernel cannot evaluate). -/
def py_strip_lower (s : String) : String :=
  ⟨(((s.data.dropWhile Char.isWhitespace).reverse.dropWhile
      Char.isWhitespace).reverse).map Char.toLower⟩

/-- `ALLOWED_STATUSES` (simulation.py line 40). -/
def ALLOWED_STATUSES : List String :=
  ["idle", "moving", "loading", "unloading", "completed"]

/-- `normalize_vehicle_status` (simulation.py lines 43–47). -/
def normalize_vehicle_status (status : String) : String :=
  let status_normalized := py_strip_lower status
  if status_normalized ∈ ALLOWED_STATUSES then status_normalized else "idle"

/-- `analyze_city_state` (simulation.py lines 50–71). -/
def analyze_city_state (vehicles : List Vehicle) (delivery_points : List DeliveryPoint) :
    CityMetrics :=
  let total_vehicles : ℕ := vehicles.length
  let moving_count : ℕ :=
    vehicles.countP (fun vehicle => normalize_vehicle_status vehicle.status == "moving")
  let idle_count : ℕ :=
    vehicles.countP (fun vehicle => normalize_vehicle_status vehicle.status == "idle")
  let total_capacity : ℚ := (vehicles.map (fun vehicle => max 0 vehicle.capacity)).sum
  let total_demand : ℚ := (delivery_points.map (fun point => max 0 point.demand)).sum
  let demand_coverage : ℚ :=
    if 0 < total_demand then min (total_capacity / total_demand) 1 else 1
  let traffic_load : ℚ :=
    if 0 < total_vehicles then ((moving_count : ℚ) / (total_vehicles : ℚ)) * 100 else 0
  let ecology : ℚ := max 0 (100 - traffic_load * (55 / 100))
  let social_score : ℚ :=
    min 100
      (demand_coverage * 70 +
        (if 0 < total_vehicles then ((idle_count : ℚ) / (total_vehicles : ℚ)) * 30 else 0))
  { ecology := round2Q ecology
    traffic_load := round2Q traffic_load
    social_score := round2Q social_score }

/-- Impact triple of `OBJECT_IMPACT` (simulation.py lines 31–37). -/
structure ObjectImpact where
  ecology : ℚ
  traffic_load : ℚ
  social_score : ℚ
deriving DecidableEq

/-- `OBJECT_TYPE_ALIASES` (simulation.py lines 17–29). -/
def OBJECT_TYPE_ALIASES : List (String × String) :=
  [("park", "park"), ("парк", "park"),
   ("school", "school"), ("школа", "school"),
   ("factory", "factory"), ("завод", "factory"),
   ("residential", "residential"), ("жилой", "residential"),
   ("жилой_район", "residential"),
   ("bridge", "bridge"), ("мост", "bridge")]

/-- `OBJECT_IMPACT` (simulation.py lines 31–37). -/
def OBJECT_IMPACT : List (String × ObjectImpact) :=
  [("park", ⟨12, -4, 10⟩),
   ("school", ⟨-2, 6, 12⟩),
   ("factory", ⟨-20, 15, 5⟩),
   ("residential", ⟨-6, 10, 14⟩),
   ("bridge", ⟨-3, -12, 7⟩)]

/-- Response of the `/impact` endpoint (the directional message plus the
impact triple). -/
structure ImpactResponse where
  object_type : String
  message : String
  impact : ObjectImpact
deriving DecidableEq

/-- The Russian directional message of `get_object_impact`; the `:.0f` format
is exact on the integral table values, rendered via the numerator. -/
def ecologyMessage (ecology_delta : ℚ) : String :=
  if ecology_delta < 0 then
    "Если вы это построите, экология упадет на " ++ toString (|ecology_delta|.num) ++ "%."
  else if 0 < ecology_delta then
    "Если вы это построите, экология вырастет на " ++ toString ecology_delta.num ++ "%."
  else
    "Если вы это построите, экология не изменится."

/-- `get_object_impact` (simulation.py lines 141–172): the HTTP 400 on an
unknown type becomes `Except.error`. -/
def get_object_impact (object_type : String) : Except String ImpactResponse :=
  match (OBJECT_TYPE_ALIASES.lookup (py_strip_lower object_type)) with
  | none =>
      Except.error
        ("Unknown object type. Supported: park/school/factory/residential/bridge "
          ++ "(или парк/школа/завод/жилой_район/мост)")
  | some normalized_type =>
      match OBJECT_IMPACT.lookup normalized_type with
      | none => Except.error "KeyError"
      | some impact =>
          Except.ok
            { object_type := normalized_type
              message := ecologyMessage impact.ecology
              impact := impact }

/-- `_route_index_for_hour` (simulation.py lines 175–181).  The float
expression `int(progress * (route_length - 1))` is the exact rational
`hour * (route_length - 1) / (duration_hours - 1)` truncated toward zero. -/
def route_index_for_hour (route_length hour duration_hours : ℤ) : ℤ :=
  if route_length ≤ 1 then 0
  else if duration_hours ≤ 1 then route_length - 1
  else
    min (route_length - 1)
      (max 0 (truncQ ((hour : ℚ) / ((duration_hours : ℚ) - 1) * ((route_length : ℚ) - 1))))

/-- `math.radians` : degrees to radians. -/
noncomputable def radians (x : ℝ) : ℝ := x * Real.pi / 180

/-- `calculate_distance` (simulation.py lines 290–302): haversine distance in
kilometres with mean Earth radius 6371 km. -/
noncomputable def calculate_distance (loc1 loc2 : Location) : ℝ :=
  let radius_km : ℝ := 6371
  let lat1 := radians loc1.lat
  let lon1 := radians loc1.lng
  let lat2 := radians loc2.lat
  let lon2 := radians loc2.lng
  let dlat := lat2 - lat1
  let dlon := lon2 - lon1
  let a := Real.sin (dlat / 2) ^ 2 +
    Real.cos lat1 * Real.cos lat2 * Real.sin (dlon / 2) ^ 2
  let c := 2 * Real.arcsin (Real.sqrt a)
  radius_km * c

/-- State threaded through the inner vehicle loop of one tick
(`step_vehicles`, `last_locations`, `total_distance`). -/
structure TickState where
  step_vehicles : List Vehicle
  last_locations : String → Option Location
  total_distance : ℝ

/-- Body of the inner `for vehicle in simulated_vehicles` loop
(simulation.py lines 203–221).  `vehicle.copy(deep=True)` is the identity on
immutable values; `route[route_index]` is `getD` (the index is proved in
bounds separately). -/
noncomputable def stepVehicle (duration_hours : ℤ) (hour : ℕ) (acc : TickState)
    (vehicle : Vehicle) : TickState :=
  let route := vehicle.route
  if route.isEmpty then
    let normalized_status := normalize_vehicle_status vehicle.status
    let next_vehicle :=
      { vehicle with
        status := if normalized_status = "moving" then "idle" else normalized_status }
    { acc with step_vehicles := acc.step_vehicles ++ [next_vehicle] }
  else
    let route_index := (route_index_for_hour (route.length : ℤ) (hour : ℤ) duration_hours).toNat
    let new_location := route.getD route_index default
    let previous_location := (acc.last_locations vehicle.id).getD vehicle.current_location
    let next_vehicle :=
      { vehicle with
        current_location := new_location
        status := if route_index < route.length - 1 then "moving" else "completed" }
    { step_vehicles := acc.step_vehicles ++ [next_vehicle]
      last_locations := Function.update acc.last_locations vehicle.id (some new_location)
      total_distance := acc.total_distance + calculate_distance previous_location new_location }

/-- Engine state across ticks (`simulated_vehicles`, `last_locations`,
`total_distance`, `steps`). -/
structure SimState where
  simulated_vehicles : List Vehicle
  last_locations : String → Option Location
  total_distance : ℝ
  steps : List SimulationStep

/-- Body of the `for hour in range(request.duration_hours)` loop
(simulation.py lines 200–246). -/
noncomputable def runTick (request : SimulationRequest) (state : SimState) (hour : ℕ) :
    SimState :=
  let tick := state.simulated_vehicles.foldl (stepVehicle request.duration_hours hour)
    ⟨[], state.last_locations, state.total_distance⟩
  let step_vehicles := tick.step_vehicles
  let moving_count := step_vehicles.countP (fun vehicle => vehicle.status == "moving")
  let completed_count := step_vehicles.countP (fun vehicle => vehicle.status == "completed")
  let idle_count := step_vehicles.countP (fun vehicle => vehicle.status == "idle")
  let city_state := analyze_city_state step_vehicles request.delivery_points
  let metrics : StepMetrics :=
    { hour := hour
      total_distance := round2R tick.total_distance
      vehicles_moving := moving_count
      vehicles_completed := completed_count
      vehicles_idle := idle_count
      ecology := city_state.ecology
      traffic_load := city_state.traffic_load
      social_score := city_state.social_score }
  { simulated_vehicles := step_vehicles
    last_locations := tick.last_locations
    total_distance := tick.total_distance
    steps := state.steps ++
      [{ timestamp := request.start_time + (hour : ℤ)
         vehicles := step_vehicles
         metrics := metrics }] }

/-- The `last_locations` dict comprehension (simulation.py lines 196–198):
later entries overwrite earlier ones. -/
def initialLastLocations (vehicles : List Vehicle) : String → Option Location :=
  vehicles.foldl
    (fun m vehicle => Function.update m vehicle.id (some vehicle.current_location))
    (fun _ => none)

/-- The body of `run_simulation` after the duration guard
(simulation.py lines 190–261). -/
noncomputable def simulate (request : SimulationRequest) : SimulationResponse :=
  let final := (List.range request.duration_hours.toNat).foldl (runTick request)
    ⟨request.vehicles, initialLastLocations request.vehicles, 0, []⟩
  let total_capacity : ℚ :=
    (request.vehicles.map (fun vehicle => max 0 vehicle.capacity)).sum
  let total_demand : ℚ :=
    (request.delivery_points.map (fun point => max 0 point.demand)).sum
  let efficiency : ℚ :=
    if 0 < total_demand then min (total_capacity / total_demand) 1 * 100
    else if 0 < total_capacity then 100 else 0
  { simulation_id := ""
    steps := final.steps
    total_distance := round2R final.total_distance
    total_time := (request.duration_hours : ℚ)
    efficiency := round2Q efficiency }

/-- `run_simulation` (simulation.py lines 184–264): the HTTP 400 on a
non-positive duration becomes `Except.error`. -/
noncomputable def run_simulation (request : SimulationRequest) :
    Except String SimulationResponse :=
  if request.duration_hours ≤ 0 then
    Except.error "duration_hours must be greater than 0"
  else
    Except.ok (simulate request)

/-! ### Per-vehicle characterization of the tick loop

The body of the vehicle loop updates each vehicle independently of the shared
`last_locations`/`total_distance` state, so the vehicle produced for this tick
is a pure function of the previous vehicle and the hour. -/

/-- The vehicle record produced by one pass of the tick body
(lines 203–221) for a single vehicle. -/
def advanceVehicle (duration_hours : ℤ) (hour : ℕ) (vehicle : Vehicle) : Vehicle :=
  if vehicle.route.isEmpty then
    let normalized_status := normalize_vehicle_status vehicle.status
    { vehicle with
      status := if normalized_status = "moving" then "idle" else normalized_status }
  else
    let route_index :=
      (route_index_for_hour (vehicle.route.length : ℤ) (hour : ℤ) duration_hours).toNat
    { vehicle with
      current_location := vehicle.route.getD route_index default
      status := if route_index < vehicle.route.length - 1 then "moving" else "completed" }

/-- The state of one vehicle after the first `n` ticks. -/
def vehicleIter (duration_hours : ℤ) (vehicle : Vehicle) : ℕ → Vehicle
  | 0 => vehicle
  | n + 1 => advanceVehicle duration_hours n (vehicleIter duration_hours vehicle n)

/-- The simulated vehicle list after the first `n` ticks. -/
def vehiclesAfter (request : SimulationRequest) (n : ℕ) : List Vehicle :=
  request.vehicles.map (fun vehicle => vehicleIter request.duration_hours vehicle n)

/-- The waypoint the tick body selects for a vehicle at a given hour. -/
def reachedWaypoint (duration_hours : ℤ) (hour : ℕ) (vehicle : Vehicle) : Location :=
  vehicle.route.getD
    ((route_index_for_hour (vehicle.route.length : ℤ) (hour : ℤ) duration_hours).toNat)
    default

/-- The waypoint last recorded for a vehicle before tick `hour` (its initial
location before tick 0, afterwards the waypoint reached at the previous
tick).  This coincides with the vehicle's `current_location` going into the
tick. -/
def prevLocAt (duration_hours : ℤ) (vehicle : Vehicle) : ℕ → Location
  | 0 => vehicle.current_location
  | h + 1 =>
      if vehicle.route.isEmpty then vehicle.current_location
      else reachedWaypoint duration_hours h vehicle

/-- The distance the engine adds for one vehicle at one tick: zero for an
empty route, otherwise the haversine distance from the last recorded waypoint
to the waypoint selected for this tick (which is zero when the two
coincide). -/
noncomputable def tickIncrement (duration_hours : ℤ) (hour : ℕ) (vehicle : Vehicle) : ℝ :=
  if vehicle.route.isEmpty then 0
  else calculate_distance (prevLocAt duration_hours vehicle hour)
    (reachedWaypoint duration_hours hour vehicle)

/-- Independent recomputation of the distance travelled by one vehicle: the
sum over all ticks of the haversine distance between the previously visited
waypoint and the newly reached waypoint, counting only ticks at which the
vehicle actually advances. -/
noncomputable def vehicle_recomputed_distance (duration_hours : ℤ) (vehicle : Vehicle) : ℝ :=
  ((List.range duration_hours.toNat).map (fun hour =>
    if vehicle.route.isEmpty then 0
    else
      let prev := prevLocAt duration_hours vehicle hour
      let reached := reachedWaypoint duration_hours hour vehicle
      @ite _ (prev = reached) (Classical.propDecidable _) 0
        (calculate_distance prev reached))).sum

/-- Independent recomputation of the total distance of a simulation run:
the consecutive haversine increments summed across all ticks for all
vehicles. -/
noncomputable def recomputed_total (request : SimulationRequest) : ℝ :=
  (request.vehicles.map (vehicle_recomputed_distance request.duration_hours)).sum

/-- The engine's accumulated (unrounded) distance after `n` ticks: the sum
over ticks of the per-tick increments of all vehicles. -/
noncomputable def totalAfter (request : SimulationRequest) (n : ℕ) : ℝ :=
  ((List.range n).map (fun hour =>
    (request.vehicles.map (tickIncrement request.duration_hours hour)).sum)).sum

/-! ### Heap model of `run_simulation` for the frame property

Python vehicles are mutable objects; `run_simulation` receives references to
the caller's `Vehicle` objects and must not write through them.  To state
this, vehicles live in an explicit store of numbered cells; `copy(deep=True)`
allocates a fresh cell and every attribute assignment is a store write at the
written object's address.  Delivery points are threaded through untouched
(the engine contains no write to a delivery point). -/

/-- A store of `Vehicle` objects: cell contents plus the next fresh address. -/
structure VehicleHeap where
  cells : ℕ → Vehicle
  next : ℕ

/-- Allocate a fresh cell holding `v` (models `copy(deep=True)`). -/
def halloc (σ : VehicleHeap) (v : Vehicle) : VehicleHeap × ℕ :=
  (⟨Function.update σ.cells σ.next v, σ.next + 1⟩, σ.next)

/-- Overwrite the cell at address `a` (models attribute assignment). -/
def hwrite (σ : VehicleHeap) (a : ℕ) (v : Vehicle) : VehicleHeap :=
  ⟨Function.update σ.cells a v, σ.next⟩

/-- `SimulationRequest` with vehicles and delivery points as references. -/
structure SimulationRequestRef where
  vehicles : List ℕ
  delivery_points : List ℕ
  start_time : ℤ
  duration_hours : ℤ

/-- A simulation step holding references to its snapshot vehicles. -/
structure HeapStep where
  timestamp : ℤ
  vehicle_refs : List ℕ
  metrics : StepMetrics

/-- `SimulationResponse` over the heap model. -/
structure HeapResponse where
  simulation_id : String
  steps : List HeapStep
  total_distance : ℝ
  total_time : ℚ
  efficiency : ℚ

/-- Tick-local state of the heap engine. -/
structure HeapTickState where
  step_refs : List ℕ
  last_locations : String → Option Location
  total_distance : ℝ
  heap : VehicleHeap

/-- Heap version of the vehicle-loop body (lines 203–221): deep-copy the
vehicle into a fresh cell, then write the updated attributes to that fresh
cell only. -/
noncomputable def stepVehicleH (duration_hours : ℤ) (hour : ℕ) (acc : HeapTickState)
    (ref : ℕ) : HeapTickState :=
  let copied := halloc acc.heap (acc.heap.cells ref)
  let σ1 := copied.1
  let next_ref := copied.2
  let vehicle := σ1.cells next_ref
  let route := vehicle.route
  if route.isEmpty then
    let normalized_status := normalize_vehicle_status vehicle.status
    { step_refs := acc.step_refs ++ [next_ref]
      last_locations := acc.last_locations
      total_distance := acc.total_distance
      heap := hwrite σ1 next_ref
        { vehicle with
          status := if normalized_status = "moving" then "idle" else normalized_status } }
  else
    let route_index :=
      (route_index_for_hour (route.length : ℤ) (hour : ℤ) duration_hours).toNat
    let new_location := route.getD route_index default
    let previous_location := (acc.last_locations vehicle.id).getD vehicle.current_location
    { step_refs := acc.step_refs ++ [next_ref]
      last_locations := Function.update acc.last_locations vehicle.id (some new_location)
      total_distance := acc.total_distance + calculate_distance previous_location new_location
      heap := hwrite σ1 next_ref
        { vehicle with
          current_location := new_location
          status := if route_index < route.length - 1 then "moving" else "completed" } }

/-- Engine state of the heap model across ticks. -/
structure HeapSimState where
  simulated_refs : List ℕ
  last_locations : String → Option Location
  total_distance : ℝ
  steps : List HeapStep
  heap : VehicleHeap

/-- Deep-copy a list of vehicles into fresh cells (lines 195 and 246). -/
def copyVehicles (σ : VehicleHeap) (refs : List ℕ) : VehicleHeap × List ℕ :=
  refs.foldl
    (fun acc r =>
      let a := halloc acc.1 (acc.1.cells r)
      (a.1, acc.2 ++ [a.2]))
    (σ, [])

/-- The `last_locations` dict comprehension over heap references. -/
def initialLastLocationsH (σ : VehicleHeap) (refs : List ℕ) : String → Option Location :=
  refs.foldl
    (fun m r => Function.update m (σ.cells r).id (some (σ.cells r).current_location))
    (fun _ => none)

/-- Heap version of the hour-loop body (lines 200–246). -/
noncomputable def runTickH (pheap : ℕ → DeliveryPoint) (request : SimulationRequestRef)
    (state : HeapSimState) (hour : ℕ) : HeapSimState :=
  let tick := state.simulated_refs.foldl (stepVehicleH request.duration_hours hour)
    ⟨[], state.last_locations, state.total_distance, state.heap⟩
  let step_vehicles := tick.step_refs.map tick.heap.cells
  let moving_count := step_vehicles.countP (fun vehicle => vehicle.status == "moving")
  let completed_count := step_vehicles.countP (fun vehicle => vehicle.status == "completed")
  let idle_count := step_vehicles.countP (fun vehicle => vehicle.status == "idle")
  let city_state :=
    analyze_city_state step_vehicles (request.delivery_points.map pheap)
  let metrics : StepMetrics :=
    { hour := hour
      total_distance := round2R tick.total_distance
      vehicles_moving := moving_count
      vehicles_completed := completed_count
      vehicles_idle := idle_count
      ecology := city_state.ecology
      traffic_load := city_state.traffic_load
      social_score := city_state.social_score }
  let copied := copyVehicles tick.heap tick.step_refs
  { simulated_refs := copied.2
    last_locations := tick.last_locations
    total_distance := tick.total_distance
    steps := state.steps ++
      [{ timestamp := request.start_time + (hour : ℤ)
         vehicle_refs := tick.step_refs
         metrics := metrics }]
    heap := copied.1 }

/-- Heap version of `run_simulation` (lines 184–264): copies the request's
vehicles into fresh cells on entry and steps only the copies. -/
noncomputable def run_simulationH (σ : VehicleHeap) (pheap : ℕ → DeliveryPoint)
    (request : SimulationRequestRef) :
    VehicleHeap × (ℕ → DeliveryPoint) × Except String HeapResponse :=
  if request.duration_hours ≤ 0 then
    (σ, pheap, Except.error "duration_hours must be greater than 0")
  else
    let copies := copyVehicles σ request.vehicles
    let final := (List.range request.duration_hours.toNat).foldl (runTickH pheap request)
      ⟨copies.2, initialLastLocationsH copies.1 copies.2, 0, [], copies.1⟩
    let total_capacity : ℚ :=
      (request.vehicles.map (fun r => max 0 (final.heap.cells r).capacity)).sum
    let total_demand : ℚ :=
      (request.delivery_points.map (fun r => max 0 (pheap r).demand)).sum
    let efficiency : ℚ :=
      if 0 < total_demand then min (total_capacity / total_demand) 1 * 100
      else if 0 < total_capacity then 100 else 0
    (final.heap, pheap,
      Except.ok
        { simulation_id := ""
          steps := final.steps
          total_distance := round2R final.total_distance
          total_time := (request.duration_hours : ℚ)
          efficiency := round2Q efficiency })

/-- The final heap extends the initial one: no cell that existed before is
changed, and the allocation frontier only moves forward. -/
def HeapExtends (σ₀ σ' : VehicleHeap) : Prop :=
  σ₀.next ≤ σ'.next ∧ ∀ a < σ₀.next, σ'.cells a = σ₀.cells a

/-! ### Helper lemmas about rounding -/

lemma round2Q_mono {x y : ℚ} (h : x ≤ y) : round2Q x ≤ round2Q y := by
  unfold round2Q
  have : round (100 * x) ≤ round (100 * y) := by
    rw [round_eq, round_eq]
    exact Int.floor_mono (by linarith)
  have hc : ((round (100 * x) : ℤ) : ℚ) ≤ ((round (100 * y) : ℤ) : ℚ) := by
    exact_mod_cast this
  linarith

lemma round2Q_zero : round2Q 0 = 0 := by
  unfold round2Q
  norm_num

lemma round2Q_hundred : round2Q 100 = 100 := by
  unfold round2Q
  have : (100 * (100 : ℚ)) = ((10000 : ℤ) : ℚ) := by norm_num
  rw [this, round_intCast]
  norm_num

lemma round2Q_nonneg {x : ℚ} (h : 0 ≤ x) : 0 ≤ round2Q x := by
  have := round2Q_mono h
  rwa [round2Q_zero] at this

lemma round2Q_le_hundred {x : ℚ} (h : x ≤ 100) : round2Q x ≤ 100 := by
  have := round2Q_mono h
  rwa [round2Q_hundred] at this

/-! ### Claim C7: all three city metrics lie in [0, 100] for arbitrary inputs -/

/-- Claim C7: for arbitrary input collections with any capacity, demand and
status values, every value returned by `analyze_city_state` lies in [0, 100]
(negative capacities and demands are clamped to zero by the `max 0` sums, not
rejected). -/
theorem analyze_city_state_bounds (vehicles : List Vehicle)
    (delivery_points : List DeliveryPoint) :
    0 ≤ (analyze_city_state vehicles delivery_points).traffic_load ∧
      (analyze_city_state vehicles delivery_points).traffic_load ≤ 100 ∧
    0 ≤ (analyze_city_state vehicles delivery_points).ecology ∧
      (analyze_city_state vehicles delivery_points).ecology ≤ 100 ∧
    0 ≤ (analyze_city_state vehicles delivery_points).social_score ∧
      (analyze_city_state vehicles delivery_points).social_score ≤ 100 := by
  unfold analyze_city_state
  set tv : ℕ := vehicles.length with htv
  set mc : ℕ :=
    vehicles.countP (fun vehicle => normalize_vehicle_status vehicle.status == "moving")
    with hmc
  set ic : ℕ :=
    vehicles.countP (fun vehicle => normalize_vehicle_status vehicle.status == "idle")
    with hic
  have hcap : (0 : ℚ) ≤ (vehicles.map (fun vehicle => max 0 vehicle.capacity)).sum := by
    apply List.sum_nonneg
    intro x hx
    obtain ⟨v, _, rfl⟩ := List.mem_map.1 hx
    exact le_max_left _ _
  have hdem : (0 : ℚ) ≤ (delivery_points.map (fun point => max 0 point.demand)).sum := by
    apply List.sum_nonneg
    intro x hx
    obtain ⟨p, _, rfl⟩ := List.mem_map.1 hx
    exact le_max_left _ _
  have hmc_le : mc ≤ tv := by
    rw [hmc, htv]; exact List.countP_le_length _
  have hcov₀ :
      (0 : ℚ) ≤ (if 0 < (delivery_points.map (fun point => max 0 point.demand)).sum then
        min ((vehicles.map (fun vehicle => max 0 vehicle.capacity)).sum /
          (delivery_points.map (fun point => max 0 point.demand)).sum) 1 else 1) := by
    split
    · exact le_min (by positivity) (by norm_num)
    · norm_num
  have hcov₁ :
      (if 0 < (delivery_points.map (fun point => max 0 point.demand)).sum then
        min ((vehicles.map (fun vehicle => max 0 vehicle.capacity)).sum /
          (delivery_points.map (fun point => max 0 point.demand)).sum) 1 else 1) ≤ 1 := by
    split
    · exact min_le_right _ _
    · norm_num
  have htl₀ : (0 : ℚ) ≤ (if 0 < tv then ((mc : ℚ) / (tv : ℚ)) * 100 else 0) := by
    split
    · positivity
    · norm_num
  have htl₁ : (if 0 < tv then ((mc : ℚ) / (tv : ℚ)) * 100 else 0) ≤ 100 := by
    split
    · next htv' =>
        have h1 : ((mc : ℚ) / (tv : ℚ)) ≤ 1 := by
          rw [div_le_one (by exact_mod_cast htv')]
          exact_mod_cast hmc_le
        linarith
    · norm_num
  have hidle₀ : (0 : ℚ) ≤ (if 0 < tv then ((ic : ℚ) / (tv : ℚ)) * 30 else 0) := by
    split
    · positivity
    · norm_num
  refine ⟨round2Q_nonneg htl₀, round2Q_le_hundred htl₁, round2Q_nonneg (le_max_left _ _),
    round2Q_le_hundred ?_, round2Q_nonneg ?_, round2Q_le_hundred (min_le_left _ _)⟩
  · apply max_le
    · norm_num
    · nlinarith
  · exact le_min (by norm_num) (by nlinarith)

/-! ### Claim C2: the concrete 4-vehicle scenario (corrected) -/

/-- Claim C2 is false on the code: with 2 idle vehicles out of 4, the idle
contribution to the social score is (2/4)·30 = 15, not 7.5, so
`social_score = min(100, 70 + 15) = 85`, not 77.5.  This closed theorem
evaluates `analyze_city_state` at the claim's concrete input and refutes the
claimed value 77.5. -/
theorem analyze_city_state_social_score_counterexample :
    (analyze_city_state
      [⟨"v1", "v1", 10, default, "moving", []⟩, ⟨"v2", "v2", 10, default, "moving", []⟩,
       ⟨"v3", "v3", 10, default, "idle", []⟩, ⟨"v4", "v4", 10, default, "idle", []⟩]
      [⟨"p1", "p1", default, 20⟩]).social_score ≠ 155 / 2 := by
  simp +decide [analyze_city_state, round2Q, List.countP_cons, List.countP_nil]
  norm_num [round_eq, Int.floor_eq_iff]

/-- Claim C2 (amended): `analyze_city_state` on 4 vehicles (2 moving, 2 idle,
total capacity 40) and delivery points totaling demand 20 returns
`traffic_load = 50.0`, demand coverage 1.0, and the idle contribution to the
social score is (2/4)·30 = 15, so `social_score = min(100, 70 + 15) = 85`. -/
theorem analyze_city_state_concrete_scenario :
    let vehicles : List Vehicle :=
      [⟨"v1", "v1", 10, default, "moving", []⟩, ⟨"v2", "v2", 10, default, "moving", []⟩,
       ⟨"v3", "v3", 10, default, "idle", []⟩, ⟨"v4", "v4", 10, default, "idle", []⟩]
    let points : List DeliveryPoint := [⟨"p1", "p1", default, 20⟩]
    (analyze_city_state vehicles points).traffic_load = 50 ∧
    (if 0 < (points.map (fun point => max 0 point.demand)).sum then
        min ((vehicles.map (fun vehicle => max 0 vehicle.capacity)).sum /
          (points.map (fun point => max 0 point.demand)).sum) 1
      else 1) = 1 ∧
    (analyze_city_state vehicles points).social_score = 85 := by
  refine ⟨?_, ?_, ?_⟩
  · simp +decide [analyze_city_state, round2Q, List.countP_cons, List.countP_nil]
    norm_num [round_eq, Int.floor_eq_iff]
  · norm_num
  · simp +decide [analyze_city_state, round2Q, List.countP_cons, List.countP_nil]
    norm_num [round_eq, Int.floor_eq_iff]

/-! ### Claim C8: bilingual alias resolution and the unknown-category error -/

/-- Claim C8: the object-impact lookup resolves the Russian alias `парк` and
the English `park` to the same canonical category with identical deltas, and
any input whose normalized form resolves to no alias (such as `spaceport`)
yields the unknown-type error rather than a silent default. -/
theorem object_impact_alias_and_error (s : String)
    (h : OBJECT_TYPE_ALIASES.lookup (py_strip_lower s) = none) :
    get_object_impact "парк" = get_object_impact "park" ∧
    (get_object_impact "парк").isOk = true ∧
    get_object_impact s =
      Except.error
        ("Unknown object type. Supported: park/school/factory/residential/bridge "
          ++ "(или парк/школа/завод/жилой_район/мост)") := by
  refine ⟨rfl, rfl, ?_⟩
  unfold get_object_impact
  rw [h]

/-- Witness for C8 at the concrete input `spaceport`. -/
theorem object_impact_alias_and_error_witness :
    OBJECT_TYPE_ALIASES.lookup (py_strip_lower "spaceport") = none ∧
    (get_object_impact "парк" = get_object_impact "park" ∧
     (get_object_impact "парк").isOk = true ∧
     get_object_impact "spaceport" =
       Except.error
         ("Unknown object type. Supported: park/school/factory/residential/bridge "
           ++ "(или парк/школа/завод/жилой_район/мост)")) :=
  ⟨by decide, object_impact_alias_and_error "spaceport" (by decide)⟩

/-! ### Properties of `route_index_for_hour` -/

lemma truncQ_of_nonneg {q : ℚ} (h : 0 ≤ q) : truncQ q = ⌊q⌋ := if_pos h

lemma rifh_nonneg {L : ℤ} (h D : ℤ) (hL : 1 ≤ L) :
    0 ≤ route_index_for_hour L h D := by
  unfold route_index_for_hour
  split
  · exact le_refl 0
  · split
    · omega
    · exact le_min (by omega) (le_max_left _ _)

lemma rifh_le_pred (L h D : ℤ) (hL : 1 ≤ L) :
    route_index_for_hour L h D ≤ L - 1 := by
  unfold route_index_for_hour
  split
  · omega
  · split
    · exact le_refl _
    · exact min_le_left _ _

lemma rifh_mono {L D h h' : ℤ} (hh0 : 0 ≤ h) (hh : h ≤ h') :
    route_index_for_hour L h D ≤ route_index_for_hour L h' D := by
  unfold route_index_for_hour
  split
  · exact le_refl 0
  · next hL =>
    split
    · exact le_refl _
    · next hD =>
      have hD1 : (1 : ℚ) < (D : ℚ) := by exact_mod_cast (by omega : (1 : ℤ) < D)
      have hL1 : (1 : ℚ) < (L : ℚ) := by exact_mod_cast (by omega : (1 : ℤ) < L)
      have hq0 : (0 : ℚ) ≤ (h : ℚ) / ((D : ℚ) - 1) * ((L : ℚ) - 1) := by
        apply mul_nonneg
        · apply div_nonneg
          · exact_mod_cast hh0
          · linarith
        · linarith
      have hq0' : (0 : ℚ) ≤ (h' : ℚ) / ((D : ℚ) - 1) * ((L : ℚ) - 1) := by
        apply mul_nonneg
        · apply div_nonneg
          · exact_mod_cast (le_trans hh0 hh)
          · linarith
        · linarith
      rw [truncQ_of_nonneg hq0, truncQ_of_nonneg hq0']
      apply min_le_min (le_refl _)
      apply max_le_max (le_refl _)
      apply Int.floor_mono
      have hcast : (h : ℚ) ≤ (h' : ℚ) := by exact_mod_cast hh
      have hD0 : (0 : ℚ) < (D : ℚ) - 1 := by linarith
      apply mul_le_mul_of_nonneg_right _ (by linarith)
      exact (div_le_div_right hD0).mpr hcast

lemma rifh_last_iff {L D h : ℤ} (hL : 2 ≤ L) (hD : 1 ≤ D) (hh0 : 0 ≤ h)
    (hhD : h < D) :
    route_index_for_hour L h D = L - 1 ↔ h = D - 1 := by
  unfold route_index_for_hour
  rw [if_neg (by omega : ¬L ≤ 1)]
  by_cases hD1 : D ≤ 1
  · rw [if_pos hD1]
    constructor
    · intro _; omega
    · intro _; rfl
  · rw [if_neg hD1]
    have hD2 : (1 : ℚ) < (D : ℚ) := by exact_mod_cast (by omega : (1 : ℤ) < D)
    have hL2 : (1 : ℚ) < (L : ℚ) := by exact_mod_cast (by omega : (1 : ℤ) < L)
    have hDpos : (0 : ℚ) < (D : ℚ) - 1 := by linarith
    have hLpos : (0 : ℚ) < (L : ℚ) - 1 := by linarith
    have hq0 : (0 : ℚ) ≤ (h : ℚ) / ((D : ℚ) - 1) * ((L : ℚ) - 1) := by
      apply mul_nonneg
      · apply div_nonneg
        · exact_mod_cast hh0
        · linarith
      · linarith
    rw [truncQ_of_nonneg hq0]
    constructor
    · intro hmin
      have hle : L - 1 ≤ max 0 ⌊(h : ℚ) / ((D : ℚ) - 1) * ((L : ℚ) - 1)⌋ := by
        by_contra hlt
        push_neg at hlt
        have := min_eq_right (le_of_lt hlt)
        omega
      have hfl : L - 1 ≤ ⌊(h : ℚ) / ((D : ℚ) - 1) * ((L : ℚ) - 1)⌋ := by
        rcases le_max_iff.mp hle with h0 | h1
        · omega
        · exact h1
      have hq : ((L - 1 : ℤ) : ℚ) ≤ (h : ℚ) / ((D : ℚ) - 1) * ((L : ℚ) - 1) :=
        Int.le_floor.mp hfl
      have hq' : (L : ℚ) - 1 ≤ (h : ℚ) / ((D : ℚ) - 1) * ((L : ℚ) - 1) := by
        push_cast at hq
        linarith
      have hdiv : (1 : ℚ) ≤ (h : ℚ) / ((D : ℚ) - 1) := by
        nlinarith
      have hhD' : (D : ℚ) - 1 ≤ (h : ℚ) := (one_le_div hDpos).mp hdiv
      have : (D : ℤ) - 1 ≤ h := by exact_mod_cast (by push_cast; linarith : ((D - 1 : ℤ) : ℚ) ≤ ((h : ℤ) : ℚ))
      omega
    · intro hh
      subst hh
      have hq : ((D : ℚ) - 1) / ((D : ℚ) - 1) * ((L : ℚ) - 1) = (L : ℚ) - 1 := by
        rw [div_self (ne_of_gt hDpos), one_mul]
      have hcast : ((D - 1 : ℤ) : ℚ) = (D : ℚ) - 1 := by push_cast; ring
      rw [hcast, hq]
      have : ⌊(L : ℚ) - 1⌋ = L - 1 := by
        rw [show (L : ℚ) - 1 = ((L - 1 : ℤ) : ℚ) by push_cast; ring, Int.floor_intCast]
      rw [this]
      rw [max_eq_right (by omega : (0 : ℤ) ≤ L - 1)]
      exact min_self _

/-! ### Characterization of the engine's vehicle evolution -/

lemma advanceVehicle_route (D : ℤ) (hour : ℕ) (v : Vehicle) :
    (advanceVehicle D hour v).route = v.route := by
  unfold advanceVehicle
  split <;> rfl

lemma vehicleIter_route (D : ℤ) (v : Vehicle) (n : ℕ) :
    (vehicleIter D v n).route = v.route := by
  induction n with
  | zero => rfl
  | succ n ih => rw [vehicleIter, advanceVehicle_route, ih]

lemma stepVehicle_step_vehicles (D : ℤ) (hour : ℕ) (acc : TickState) (v : Vehicle) :
    (stepVehicle D hour acc v).step_vehicles =
      acc.step_vehicles ++ [advanceVehicle D hour v] := by
  unfold stepVehicle advanceVehicle
  by_cases h : v.route.isEmpty = true
  · rw [if_pos h, if_pos h]
  · rw [if_neg h, if_neg h]

lemma foldl_stepVehicle_vehicles (D : ℤ) (hour : ℕ) :
    ∀ (vs : List Vehicle) (acc : TickState),
      (vs.foldl (stepVehicle D hour) acc).step_vehicles =
        acc.step_vehicles ++ vs.map (advanceVehicle D hour) := by
  intro vs
  induction vs with
  | nil => intro acc; simp
  | cons v vs ih =>
      intro acc
      rw [List.foldl_cons, ih, stepVehicle_step_vehicles, List.map_cons]
      simp

lemma vehiclesAfter_zero (request : SimulationRequest) :
    vehiclesAfter request 0 = request.vehicles := by
  unfold vehiclesAfter
  simp [vehicleIter]

lemma vehiclesAfter_succ (request : SimulationRequest) (n : ℕ) :
    vehiclesAfter request (n + 1) =
      (vehiclesAfter request n).map (advanceVehicle request.duration_hours n) := by
  unfold vehiclesAfter
  rw [List.map_map]
  rfl

lemma runTick_simulated (request : SimulationRequest) (state : SimState) (hour : ℕ) :
    (runTick request state hour).simulated_vehicles =
      (state.simulated_vehicles.foldl (stepVehicle request.duration_hours hour)
        ⟨[], state.last_locations, state.total_distance⟩).step_vehicles := rfl

lemma runTick_last_locations (request : SimulationRequest) (state : SimState) (hour : ℕ) :
    (runTick request state hour).last_locations =
      (state.simulated_vehicles.foldl (stepVehicle request.duration_hours hour)
        ⟨[], state.last_locations, state.total_distance⟩).last_locations := rfl

lemma runTick_total_distance (request : SimulationRequest) (state : SimState) (hour : ℕ) :
    (runTick request state hour).total_distance =
      (state.simulated_vehicles.foldl (stepVehicle request.duration_hours hour)
        ⟨[], state.last_locations, state.total_distance⟩).total_distance := rfl

lemma runTick_steps (request : SimulationRequest) (state : SimState) (hour : ℕ) :
    ∃ ts ms, (runTick request state hour).steps =
      state.steps ++
        [{ timestamp := ts
           vehicles :=
             (state.simulated_vehicles.foldl (stepVehicle request.duration_hours hour)
               ⟨[], state.last_locations, state.total_distance⟩).step_vehicles
           metrics := ms }] :=
  ⟨_, _, rfl⟩

lemma sim_fold_weak (request : SimulationRequest) (n : ℕ) :
    ((List.range n).foldl (runTick request)
      ⟨request.vehicles, initialLastLocations request.vehicles, 0, []⟩).simulated_vehicles =
        vehiclesAfter request n ∧
    ((List.range n).foldl (runTick request)
      ⟨request.vehicles, initialLastLocations request.vehicles, 0, []⟩).steps.map
        SimulationStep.vehicles =
      (List.range n).map (fun k => vehiclesAfter request (k + 1)) := by
  induction n with
  | zero => exact ⟨(vehiclesAfter_zero request).symm, rfl⟩
  | succ n ih =>
      obtain ⟨h1, h2⟩ := ih
      rw [List.range_succ, List.foldl_append, List.foldl_cons, List.foldl_nil]
      set st := (List.range n).foldl (runTick request)
        (⟨request.vehicles, initialLastLocations request.vehicles, 0, []⟩ : SimState) with hst
      constructor
      · rw [runTick_simulated, foldl_stepVehicle_vehicles, h1, List.nil_append,
          vehiclesAfter_succ]
      · obtain ⟨ts, ms, hsteps⟩ := runTick_steps request st n
        rw [hsteps, List.map_append, h2, List.map_append]
        congr 1
        simp only [List.map_cons, List.map_nil]
        rw [foldl_stepVehicle_vehicles, h1, List.nil_append, vehiclesAfter_succ]

lemma simulate_steps (request : SimulationRequest) :
    (simulate request).steps =
      ((List.range request.duration_hours.toNat).foldl (runTick request)
        ⟨request.vehicles, initialLastLocations request.vehicles, 0, []⟩).steps := rfl

lemma vehiclesAfter_getD (request : SimulationRequest) (i m : ℕ)
    (hi : i < request.vehicles.length) :
    (vehiclesAfter request m).getD i default =
      vehicleIter request.duration_hours (request.vehicles.getD i default) m := by
  unfold vehiclesAfter
  rw [List.getD_eq_getElem _ _ (by simpa using hi), List.getElem_map,
    List.getD_eq_getElem _ _ hi]

lemma vehicleIter_empty_location (D : ℤ) (v : Vehicle) (hroute : v.route.isEmpty = true)
    (n : ℕ) : (vehicleIter D v n).current_location = v.current_location := by
  induction n with
  | zero => rfl
  | succ n ih =>
      show (advanceVehicle D n (vehicleIter D v n)).current_location = _
      unfold advanceVehicle
      rw [if_pos (by rw [vehicleIter_route]; exact hroute)]
      exact ih

lemma advance_empty_status_ne_moving (D : ℤ) (hour : ℕ) (v : Vehicle)
    (hroute : v.route.isEmpty = true) : (advanceVehicle D hour v).status ≠ "moving" := by
  unfold advanceVehicle
  rw [if_pos hroute]
  show (if normalize_vehicle_status v.status = "moving" then "idle"
    else normalize_vehicle_status v.status) ≠ "moving"
  by_cases h : normalize_vehicle_status v.status = "moving"
  · rw [if_pos h]
    decide
  · rw [if_neg h]
    exact h

lemma vehicleIter_status_nonempty (D : ℤ) (v : Vehicle) (k : ℕ)
    (hne : v.route.isEmpty = false) :
    (vehicleIter D v (k + 1)).status =
      if (route_index_for_hour (v.route.length : ℤ) (k : ℤ) D).toNat <
          v.route.length - 1
        then "moving" else "completed" := by
  show (advanceVehicle D k (vehicleIter D v k)).status = _
  unfold advanceVehicle
  rw [if_neg (by rw [vehicleIter_route, hne]; exact Bool.false_ne_true)]
  simp only [vehicleIter_route]

lemma empty_status_persists (D : ℤ) (v : Vehicle) (hroute : v.route.isEmpty = true)
    (k : ℕ) (hc : (vehicleIter D v (k + 1)).status = "completed") :
    ∀ j, (vehicleIter D v (k + 1 + j)).status = "completed" := by
  intro j
  induction j with
  | zero => exact hc
  | succ j ih =>
      show (advanceVehicle D (k + 1 + j) (vehicleIter D v (k + 1 + j))).status = _
      unfold advanceVehicle
      rw [if_pos (by rw [vehicleIter_route]; exact hroute)]
      simp only [ih]
      decide

/-! ### Claim C5: an empty-route vehicle never moves -/

/-- Claim C5: a vehicle with an empty route has its initial
`current_location` in every step of the response, and its status is never
`moving` (a vehicle that entered as `moving` is demoted to `idle`). -/
theorem empty_route_invariant (request : SimulationRequest) (i : ℕ)
    (hi : i < request.vehicles.length) (hD : 0 < request.duration_hours)
    (hroute : (request.vehicles.getD i default).route = []) :
    run_simulation request = Except.ok (simulate request) ∧
    ∀ s ∈ (simulate request).steps,
      (s.vehicles.getD i default).current_location =
        (request.vehicles.getD i default).current_location ∧
      (s.vehicles.getD i default).status ≠ "moving" := by
  have hD' : ¬request.duration_hours ≤ 0 := by omega
  refine ⟨by unfold run_simulation; rw [if_neg hD'], ?_⟩
  intro s hs
  obtain ⟨_, h2⟩ := sim_fold_weak request request.duration_hours.toNat
  rw [simulate_steps] at hs
  have hv : s.vehicles ∈ (List.range request.duration_hours.toNat).map
      (fun k => vehiclesAfter request (k + 1)) := by
    rw [← h2]
    exact List.mem_map_of_mem _ hs
  obtain ⟨k, _, hk⟩ := List.mem_map.1 hv
  rw [← hk, vehiclesAfter_getD request i (k + 1) hi]
  have hroute' : (request.vehicles.getD i default).route.isEmpty = true := by
    rw [hroute]; rfl
  constructor
  · exact vehicleIter_empty_location _ _ hroute' (k + 1)
  · show (advanceVehicle _ k (vehicleIter _ _ k)).status ≠ "moving"
    exact advance_empty_status_ne_moving _ _ _
      (by rw [vehicleIter_route]; exact hroute')

/-- Witness for C5: one vehicle entering as `moving` with an empty route,
one delivery point, duration 1. -/
theorem empty_route_invariant_witness :
    let request : SimulationRequest :=
      ⟨[⟨"v1", "v1", 5, ⟨10, 20⟩, "moving", []⟩], [⟨"p1", "p1", ⟨0, 0⟩, 4⟩], 0, 1⟩
    (0 : ℕ) < request.vehicles.length ∧ (0 : ℤ) < request.duration_hours ∧
    (request.vehicles.getD 0 default).route = [] ∧
    (run_simulation request = Except.ok (simulate request) ∧
     ∀ s ∈ (simulate request).steps,
       (s.vehicles.getD 0 default).current_location =
         (request.vehicles.getD 0 default).current_location ∧
       (s.vehicles.getD 0 default).status ≠ "moving") :=
  ⟨by decide, by decide, rfl,
   empty_route_invariant _ 0 (by decide) (by decide) rfl⟩

/-! ### Claim C6: `completed` is absorbing within one run -/

lemma steps_getD_vehicles (request : SimulationRequest) (k : ℕ)
    (hk : k < request.duration_hours.toNat) :
    ((simulate request).steps.getD k default).vehicles = vehiclesAfter request (k + 1) := by
  obtain ⟨_, h2⟩ := sim_fold_weak request request.duration_hours.toNat
  have hlen : (simulate request).steps.length = request.duration_hours.toNat := by
    have := congrArg List.length h2
    rw [List.length_map, List.length_map, List.length_range] at this
    rw [simulate_steps]
    exact this
  have hk' : k < (simulate request).steps.length := by rw [hlen]; exact hk
  have hk2 : k < ((simulate request).steps.map SimulationStep.vehicles).length := by
    rw [List.length_map]; exact hk'
  rw [List.getD_eq_getElem _ _ hk']
  have : (simulate request).steps[k].vehicles =
      ((simulate request).steps.map SimulationStep.vehicles)[k] := by
    rw [List.getElem_map]
  rw [this]
  have h2' : ((simulate request).steps.map SimulationStep.vehicles) =
      (List.range request.duration_hours.toNat).map (fun k => vehiclesAfter request (k + 1)) := by
    rw [simulate_steps]; exact h2
  simp only [h2', List.getElem_map, List.getElem_range]

/-- Claim C6: within one run a vehicle's status never leaves `completed`:
if the vehicle at index i is `completed` at tick h, it is `completed` at
every later tick h'. -/
theorem completed_status_persistent (request : SimulationRequest) (i h h' : ℕ)
    (hi : i < request.vehicles.length) (hh : h ≤ h')
    (hh' : h' < request.duration_hours.toNat)
    (hc : (((simulate request).steps.getD h default).vehicles.getD i default).status =
      "completed") :
    (((simulate request).steps.getD h' default).vehicles.getD i default).status =
      "completed" := by
  have hhn : h < request.duration_hours.toNat := lt_of_le_of_lt hh hh'
  rw [steps_getD_vehicles request h hhn, vehiclesAfter_getD request i (h + 1) hi] at hc
  rw [steps_getD_vehicles request h' hh', vehiclesAfter_getD request i (h' + 1) hi]
  set v₀ := request.vehicles.getD i default with hv₀
  set D := request.duration_hours with hD
  by_cases hroute : v₀.route.isEmpty
  · have := empty_status_persists D v₀ hroute h hc (h' - h)
    rwa [show h + 1 + (h' - h) = h' + 1 by omega] at this
  · have hne : v₀.route.isEmpty = false := by
      revert hroute
      cases v₀.route.isEmpty <;> simp
    rw [vehicleIter_status_nonempty D v₀ h hne] at hc
    rw [vehicleIter_status_nonempty D v₀ h' hne]
    set L := v₀.route.length with hL
    have hL1 : 1 ≤ L := by
      rw [hL]
      have : v₀.route ≠ [] := by
        intro hnil; rw [hnil] at hne; simp at hne
      exact List.length_pos.mpr this
    by_cases hlt : (route_index_for_hour (L : ℤ) (h : ℤ) D).toNat < L - 1
    · rw [if_pos hlt] at hc
      exact absurd hc (by decide)
    · have hmonoZ : route_index_for_hour (L : ℤ) (h : ℤ) D ≤
          route_index_for_hour (L : ℤ) (h' : ℤ) D :=
        rifh_mono (by exact_mod_cast Nat.zero_le h) (by exact_mod_cast hh)
      have hb1 := rifh_nonneg (L := (L : ℤ)) (h : ℤ) D (by exact_mod_cast hL1)
      have hb2 := rifh_le_pred (L : ℤ) (h' : ℤ) D (by exact_mod_cast hL1)
      rw [if_neg (by omega)]

/-- Witness for C6: one vehicle with a single-waypoint route completes at
tick 0 and is still `completed` at tick 1 of a 2-hour run. -/
theorem completed_status_persistent_witness :
    let request : SimulationRequest :=
      ⟨[⟨"v1", "v1", 5, ⟨10, 20⟩, "idle", [⟨11, 21⟩]⟩], [⟨"p1", "p1", ⟨0, 0⟩, 4⟩], 0, 2⟩
    (0 : ℕ) < request.vehicles.length ∧ (0 : ℕ) ≤ 1 ∧
    1 < request.duration_hours.toNat ∧
    (((simulate request).steps.getD 0 default).vehicles.getD 0 default).status =
      "completed" ∧
    (((simulate request).steps.getD 1 default).vehicles.getD 0 default).status =
      "completed" :=
  ⟨by decide, by decide, by decide, rfl,
   completed_status_persistent _ 0 0 1 (by decide) (by decide) (by decide) rfl⟩

/-! ### Distance accounting of the tick loop -/

lemma advanceVehicle_id (D : ℤ) (hour : ℕ) (v : Vehicle) :
    (advanceVehicle D hour v).id = v.id := by
  unfold advanceVehicle
  split <;> rfl

lemma vehicleIter_id (D : ℤ) (v : Vehicle) (n : ℕ) : (vehicleIter D v n).id = v.id := by
  induction n with
  | zero => rfl
  | succ n ih => rw [vehicleIter, advanceVehicle_id, ih]

lemma vehiclesAfter_ids (request : SimulationRequest) (n : ℕ) :
    (vehiclesAfter request n).map Vehicle.id = request.vehicles.map Vehicle.id := by
  unfold vehiclesAfter
  rw [List.map_map]
  exact List.map_congr_left (fun v _ => vehicleIter_id _ v n)

lemma advance_empty_location (D : ℤ) (hour : ℕ) (v : Vehicle)
    (h : v.route.isEmpty = true) :
    (advanceVehicle D hour v).current_location = v.current_location := by
  unfold advanceVehicle
  rw [if_pos h]

lemma advance_nonempty_location (D : ℤ) (hour : ℕ) (v : Vehicle)
    (h : v.route.isEmpty = false) :
    (advanceVehicle D hour v).current_location = reachedWaypoint D hour v := by
  unfold advanceVehicle
  rw [if_neg (by simp [h])]
  rfl

lemma reachedWaypoint_congr (D : ℤ) (hour : ℕ) {w v : Vehicle}
    (h : w.route = v.route) : reachedWaypoint D hour w = reachedWaypoint D hour v := by
  unfold reachedWaypoint
  rw [h]

lemma prevLocAt_empty (D : ℤ) (v : Vehicle) (h : v.route.isEmpty = true) :
    ∀ n, prevLocAt D v n = v.current_location := by
  intro n
  cases n with
  | zero => rfl
  | succ n =>
      show (if v.route.isEmpty then v.current_location else _) = _
      rw [if_pos h]

lemma vehicleIter_current_location (D : ℤ) (v : Vehicle) :
    ∀ n, (vehicleIter D v n).current_location = prevLocAt D v n := by
  intro n
  induction n with
  | zero => rfl
  | succ n _ =>
      by_cases h : v.route.isEmpty = true
      · rw [vehicleIter,
          advance_empty_location _ _ _ (by rw [vehicleIter_route]; exact h),
          vehicleIter_empty_location _ _ h, prevLocAt_empty _ _ h]
      · have h' : v.route.isEmpty = false := by
          revert h; cases v.route.isEmpty <;> simp
        rw [vehicleIter,
          advance_nonempty_location _ _ _ (by rw [vehicleIter_route]; exact h'),
          reachedWaypoint_congr D n (vehicleIter_route D v n)]
        show _ = (if v.route.isEmpty then v.current_location else reachedWaypoint D n v)
        rw [if_neg (by simp [h'])]

lemma foldl_update_untouched :
    ∀ (vs : List Vehicle) (m : String → Option Location) (key : String),
      (∀ v ∈ vs, v.id ≠ key) →
      vs.foldl (fun (m : String → Option Location) vehicle =>
        Function.update m vehicle.id (some vehicle.current_location)) m key = m key := by
  intro vs
  induction vs with
  | nil => intro m key _; rfl
  | cons u us ih =>
      intro m key h
      rw [List.foldl_cons, ih _ key (fun v hv => h v (List.mem_cons_of_mem _ hv)),
        Function.update_noteq (Ne.symm (h u (List.mem_cons_self u us)))]

lemma foldl_update_mem :
    ∀ (vs : List Vehicle) (m : String → Option Location),
      ((vs.map Vehicle.id).Nodup) → ∀ v ∈ vs,
      vs.foldl (fun (m : String → Option Location) vehicle =>
        Function.update m vehicle.id (some vehicle.current_location)) m v.id =
        some v.current_location := by
  intro vs
  induction vs with
  | nil => intro m _ v hv; simp at hv
  | cons u us ih =>
      intro m hnd v hv
      rw [List.map_cons, List.nodup_cons] at hnd
      obtain ⟨hu, hus⟩ := hnd
      rw [List.foldl_cons]
      rcases List.mem_cons.1 hv with rfl | hv'
      · rw [foldl_update_untouched us _ v.id
          (fun w hw heq => hu (heq ▸ List.mem_map_of_mem Vehicle.id hw)),
          Function.update_same]
      · exact ih _ hus v hv'

lemma initialLastLocations_spec (vehicles : List Vehicle)
    (hnd : (vehicles.map Vehicle.id).Nodup) :
    ∀ v ∈ vehicles, initialLastLocations vehicles v.id = some v.current_location :=
  foldl_update_mem vehicles _ hnd

lemma stepVehicle_empty_eq (D : ℤ) (hour : ℕ) (acc : TickState) (v : Vehicle)
    (h : v.route.isEmpty = true) :
    stepVehicle D hour acc v =
      ⟨acc.step_vehicles ++ [advanceVehicle D hour v], acc.last_locations,
        acc.total_distance⟩ := by
  unfold stepVehicle advanceVehicle
  rw [if_pos h, if_pos h]

lemma stepVehicle_nonempty_eq (D : ℤ) (hour : ℕ) (acc : TickState) (v : Vehicle)
    (h : v.route.isEmpty = false) :
    stepVehicle D hour acc v =
      ⟨acc.step_vehicles ++ [advanceVehicle D hour v],
       Function.update acc.last_locations v.id (some (reachedWaypoint D hour v)),
       acc.total_distance +
         calculate_distance ((acc.last_locations v.id).getD v.current_location)
           (reachedWaypoint D hour v)⟩ := by
  unfold stepVehicle advanceVehicle reachedWaypoint
  rw [if_neg (by simp [h]), if_neg (by simp [h])]

lemma foldl_stepVehicle_track (D : ℤ) (hour : ℕ) :
    ∀ (vs : List Vehicle) (acc : TickState),
      (vs.map Vehicle.id).Nodup →
      (∀ v ∈ vs, acc.last_locations v.id = some v.current_location) →
      ((vs.foldl (stepVehicle D hour) acc).total_distance =
        acc.total_distance + (vs.map (fun v =>
          if v.route.isEmpty then 0
          else calculate_distance v.current_location (reachedWaypoint D hour v))).sum) ∧
      (∀ v ∈ vs, (vs.foldl (stepVehicle D hour) acc).last_locations v.id =
        some (advanceVehicle D hour v).current_location) ∧
      (∀ key, (∀ v ∈ vs, v.id ≠ key) →
        (vs.foldl (stepVehicle D hour) acc).last_locations key =
          acc.last_locations key) := by
  intro vs
  induction vs with
  | nil =>
      intro acc _ _
      exact ⟨by simp, by simp, fun key _ => rfl⟩
  | cons u us ih =>
      intro acc hnd hll
      rw [List.map_cons, List.nodup_cons] at hnd
      obtain ⟨hu, hus⟩ := hnd
      have hllu : acc.last_locations u.id = some u.current_location :=
        hll u (List.mem_cons_self u us)
      have husne : ∀ w ∈ us, w.id ≠ u.id :=
        fun w hw heq => hu (heq ▸ List.mem_map_of_mem Vehicle.id hw)
      by_cases hroute : u.route.isEmpty = true
      · rw [List.foldl_cons, stepVehicle_empty_eq D hour acc u hroute]
        obtain ⟨ht, h2, h3⟩ := ih
          ⟨acc.step_vehicles ++ [advanceVehicle D hour u], acc.last_locations,
            acc.total_distance⟩ hus
          (fun v hv => hll v (List.mem_cons_of_mem _ hv))
        refine ⟨?_, ?_, ?_⟩
        · rw [ht, List.map_cons, List.sum_cons, if_pos hroute, zero_add]
        · intro v hv
          rcases List.mem_cons.1 hv with rfl | hv'
          · rw [h3 v.id (husne), advance_empty_location D hour v hroute]
            exact hllu
          · exact h2 v hv'
        · intro key hkey
          exact h3 key (fun v hv => hkey v (List.mem_cons_of_mem _ hv))
      · have hroute' : u.route.isEmpty = false := by
          revert hroute; cases u.route.isEmpty <;> simp
        rw [List.foldl_cons, stepVehicle_nonempty_eq D hour acc u hroute']
        obtain ⟨ht, h2, h3⟩ := ih
          ⟨acc.step_vehicles ++ [advanceVehicle D hour u],
           Function.update acc.last_locations u.id (some (reachedWaypoint D hour u)),
           acc.total_distance +
             calculate_distance ((acc.last_locations u.id).getD u.current_location)
               (reachedWaypoint D hour u)⟩ hus
          (by
            intro v hv
            have hne : v.id ≠ u.id := husne v hv
            show Function.update acc.last_locations u.id _ v.id = _
            rw [Function.update_noteq hne]
            exact hll v (List.mem_cons_of_mem _ hv))
        refine ⟨?_, ?_, ?_⟩
        · rw [ht, List.map_cons, List.sum_cons, if_neg (by simp [hroute']), hllu]
          show acc.total_distance + calculate_distance u.current_location _ + _ = _
          ring
        · intro v hv
          rcases List.mem_cons.1 hv with rfl | hv'
          · rw [h3 v.id (husne), advance_nonempty_location D hour v hroute']
            show Function.update acc.last_locations v.id _ v.id = _
            rw [Function.update_same]
          · exact h2 v hv'
        · intro key hkey
          rw [h3 key (fun v hv => hkey v (List.mem_cons_of_mem _ hv))]
          show Function.update acc.last_locations u.id _ key = _
          rw [Function.update_noteq (Ne.symm (hkey u (List.mem_cons_self u us)))]

lemma sim_fold_strong (request : SimulationRequest)
    (hnd : (request.vehicles.map Vehicle.id).Nodup) :
    ∀ n, (∀ v ∈ vehiclesAfter request n,
      ((List.range n).foldl (runTick request)
        ⟨request.vehicles, initialLastLocations request.vehicles, 0, []⟩).last_locations
          v.id = some v.current_location) ∧
    ((List.range n).foldl (runTick request)
      ⟨request.vehicles, initialLastLocations request.vehicles, 0, []⟩).total_distance =
      totalAfter request n := by
  intro n
  induction n with
  | zero =>
      constructor
      · intro v hv
        rw [vehiclesAfter_zero] at hv
        exact initialLastLocations_spec request.vehicles hnd v hv
      · show (0 : ℝ) = totalAfter request 0
        simp [totalAfter]
  | succ n ih =>
      obtain ⟨ih1, ih2⟩ := ih
      obtain ⟨hw1, _⟩ := sim_fold_weak request n
      rw [List.range_succ, List.foldl_append, List.foldl_cons, List.foldl_nil]
      set st := (List.range n).foldl (runTick request)
        (⟨request.vehicles, initialLastLocations request.vehicles, 0, []⟩ : SimState)
        with hst
      have hnodup' : ((vehiclesAfter request n).map Vehicle.id).Nodup := by
        rw [vehiclesAfter_ids]; exact hnd
      obtain ⟨ht, h2, _⟩ := foldl_stepVehicle_track request.duration_hours n
        (vehiclesAfter request n) ⟨[], st.last_locations, st.total_distance⟩ hnodup'
        (fun v hv => ih1 v hv)
      constructor
      · intro v hv
        rw [runTick_last_locations, hw1]
        rw [vehiclesAfter_succ] at hv
        obtain ⟨w, hw, rfl⟩ := List.mem_map.1 hv
        rw [advanceVehicle_id]
        exact h2 w hw
      · rw [runTick_total_distance, hw1, ht]
        have hsum : ((vehiclesAfter request n).map (fun v =>
            if v.route.isEmpty then 0
            else calculate_distance v.current_location
              (reachedWaypoint request.duration_hours n v))).sum =
            (request.vehicles.map (tickIncrement request.duration_hours n)).sum := by
          unfold vehiclesAfter
          rw [List.map_map]
          apply congrArg List.sum
          apply List.map_congr_left
          intro v _
          show (if (vehicleIter request.duration_hours v n).route.isEmpty then 0
            else calculate_distance
              (vehicleIter request.duration_hours v n).current_location
              (reachedWaypoint request.duration_hours n
                (vehicleIter request.duration_hours v n))) = _
          rw [vehicleIter_route, vehicleIter_current_location,
            reachedWaypoint_congr _ n (vehicleIter_route _ v n)]
          rfl
        show st.total_distance + _ = totalAfter request (n + 1)
        rw [ih2, hsum]
        unfold totalAfter
        rw [List.range_succ, List.map_append, List.sum_append]
        simp

lemma sum_map_add (l : List Vehicle) (g h : Vehicle → ℝ) :
    (l.map (fun v => g v + h v)).sum = (l.map g).sum + (l.map h).sum := by
  induction l with
  | nil => simp
  | cons x xs ih =>
      simp only [List.map_cons, List.sum_cons, ih]
      ring

lemma sum_map_const_zero (l : List Vehicle) : (l.map (fun _ => (0 : ℝ))).sum = 0 := by
  induction l with
  | nil => rfl
  | cons x xs ih => simp [ih]

lemma range_sum_swap (n : ℕ) (l : List Vehicle) (f : ℕ → Vehicle → ℝ) :
    ((List.range n).map (fun h => (l.map (f h)).sum)).sum =
      (l.map (fun v => ((List.range n).map (fun h => f h v)).sum)).sum := by
  induction n with
  | zero =>
      simp only [List.range_zero, List.map_nil, List.sum_nil]
      exact (sum_map_const_zero l).symm
  | succ n ih =>
      have hfun : (fun v => ((List.range (n + 1)).map (fun h => f h v)).sum) =
          (fun v => ((List.range n).map (fun h => f h v)).sum + f n v) := by
        funext v
        rw [List.range_succ, List.map_append, List.sum_append]
        simp
      rw [hfun, sum_map_add, ← ih, List.range_succ, List.map_append, List.sum_append]
      simp

lemma calculate_distance_self (loc : Location) : calculate_distance loc loc = 0 := by
  show 6371 * (2 * Real.arcsin (Real.sqrt
    (Real.sin ((radians loc.lat - radians loc.lat) / 2) ^ 2 +
      Real.cos (radians loc.lat) * Real.cos (radians loc.lat) *
        Real.sin ((radians loc.lng - radians loc.lng) / 2) ^ 2))) = 0
  rw [sub_self, sub_self, zero_div, Real.sin_zero]
  norm_num

lemma tick_sums_to_recomputed (request : SimulationRequest) :
    totalAfter request request.duration_hours.toNat = recomputed_total request := by
  unfold totalAfter recomputed_total
  rw [range_sum_swap]
  apply congrArg List.sum
  apply List.map_congr_left
  intro v _
  unfold vehicle_recomputed_distance
  apply congrArg List.sum
  apply List.map_congr_left
  intro h _
  unfold tickIncrement
  by_cases hroute : v.route.isEmpty = true
  · rw [if_pos hroute, if_pos hroute]
  · rw [if_neg hroute, if_neg hroute]
    simp only
    by_cases heq : prevLocAt request.duration_hours v h =
      reachedWaypoint request.duration_hours h v
    · rw [if_pos heq, heq, calculate_distance_self]
    · rw [if_neg heq]

lemma simulate_total_distance (request : SimulationRequest) :
    (simulate request).total_distance =
      round2R (((List.range request.duration_hours.toNat).foldl (runTick request)
        ⟨request.vehicles, initialLastLocations request.vehicles, 0, []⟩).total_distance) :=
  rfl

/-! ### Claim C1: the total distance is the rounded recomputed sum -/

/-- Claim C1 (amended): when the request's vehicle ids are pairwise distinct,
`run_simulation`'s returned `total_distance` equals the 2-decimal rounding of
the sum over all vehicles and all ticks of the haversine distance between the
previously visited waypoint and the newly reached waypoint, counting only
ticks at which the vehicle actually advances (the engine adds
`haversine(x, x) = 0` at non-advancing ticks, so the accumulator grows only
at advancing ticks). -/
theorem total_distance_eq_rounded_recomputation (request : SimulationRequest)
    (hnd : (request.vehicles.map Vehicle.id).Nodup)
    (hD : 0 < request.duration_hours) :
    run_simulation request = Except.ok (simulate request) ∧
    (simulate request).total_distance = round2R (recomputed_total request) := by
  have hD' : ¬request.duration_hours ≤ 0 := by omega
  refine ⟨by unfold run_simulation; rw [if_neg hD'], ?_⟩
  obtain ⟨_, h2⟩ := sim_fold_strong request hnd request.duration_hours.toNat
  rw [simulate_total_distance, h2, tick_sums_to_recomputed]

/-- Witness for C1 at a concrete single-vehicle request. -/
theorem total_distance_eq_rounded_recomputation_witness :
    let request : SimulationRequest :=
      ⟨[⟨"v1", "v1", 2, ⟨1, 2⟩, "idle", []⟩], [⟨"p1", "p1", ⟨0, 0⟩, 3⟩], 0, 1⟩
    (request.vehicles.map Vehicle.id).Nodup ∧ (0 : ℤ) < request.duration_hours ∧
    (run_simulation request = Except.ok (simulate request) ∧
     (simulate request).total_distance = round2R (recomputed_total request)) :=
  ⟨by decide, by decide,
   total_distance_eq_rounded_recomputation _ (by decide) (by decide)⟩

/-- Claim C1 is false as stated: with two vehicles sharing the id `x`, the
engine's `last_locations` dict mixes the two vehicles, so the returned
total (here the rounded `2·6371π` km of two antipodal hops the recomputation
never takes) differs from the per-vehicle recomputed sum (here 0: each
vehicle's single waypoint is its own initial location).  The returned value
also differs from the rounded recomputed sum, so rounding alone does not
repair the claim for duplicate ids. -/
theorem total_distance_duplicate_id_counterexample :
    let request : SimulationRequest :=
      ⟨[⟨"x", "v1", 1, ⟨0, 0⟩, "idle", [⟨0, 0⟩]⟩,
        ⟨"x", "v2", 1, ⟨0, 180⟩, "idle", [⟨0, 180⟩]⟩], [], 0, 1⟩
    (simulate request).total_distance ≠ recomputed_total request ∧
    (simulate request).total_distance ≠ round2R (recomputed_total request) := by
  have h180 : radians 180 = Real.pi := by
    unfold radians
    rw [mul_comm, mul_div_assoc]
    norm_num
  have h0 : radians 0 = 0 := by
    unfold radians
    norm_num
  have hd1 : calculate_distance ⟨0, 180⟩ ⟨0, 0⟩ = 6371 * Real.pi := by
    show (6371 : ℝ) * (2 * Real.arcsin (Real.sqrt
      (Real.sin ((radians 0 - radians 0) / 2) ^ 2 +
        Real.cos (radians 0) * Real.cos (radians 0) *
          Real.sin ((radians 0 - radians 180) / 2) ^ 2))) = 6371 * Real.pi
    rw [h180, h0, sub_self, zero_div, Real.sin_zero, Real.cos_zero]
    rw [show ((0 : ℝ) - Real.pi) / 2 = -(Real.pi / 2) by ring]
    rw [Real.sin_neg, Real.sin_pi_div_two]
    norm_num [Real.sqrt_one, Real.arcsin_one]
    ring
  have hd2 : calculate_distance ⟨0, 0⟩ ⟨0, 180⟩ = 6371 * Real.pi := by
    show (6371 : ℝ) * (2 * Real.arcsin (Real.sqrt
      (Real.sin ((radians 0 - radians 0) / 2) ^ 2 +
        Real.cos (radians 0) * Real.cos (radians 0) *
          Real.sin ((radians 180 - radians 0) / 2) ^ 2))) = 6371 * Real.pi
    rw [h180, h0, sub_self, zero_div, Real.sin_zero, Real.cos_zero]
    rw [show (Real.pi - (0 : ℝ)) / 2 = Real.pi / 2 by ring]
    rw [Real.sin_pi_div_two]
    norm_num [Real.sqrt_one, Real.arcsin_one]
    ring
  have hsim : (simulate
      (⟨[⟨"x", "v1", 1, ⟨0, 0⟩, "idle", [⟨0, 0⟩]⟩,
         ⟨"x", "v2", 1, ⟨0, 180⟩, "idle", [⟨0, 180⟩]⟩], [], 0, 1⟩ :
        SimulationRequest)).total_distance =
      round2R (0 + calculate_distance ⟨0, 180⟩ ⟨0, 0⟩ +
        calculate_distance ⟨0, 0⟩ ⟨0, 180⟩) := rfl
  have hrec : recomputed_total
      (⟨[⟨"x", "v1", 1, ⟨0, 0⟩, "idle", [⟨0, 0⟩]⟩,
         ⟨"x", "v2", 1, ⟨0, 180⟩, "idle", [⟨0, 180⟩]⟩], [], 0, 1⟩ :
        SimulationRequest) = 0 := by
    unfold recomputed_total vehicle_recomputed_distance
    have hr : List.range 1 = [0] := rfl
    simp [prevLocAt, reachedWaypoint, route_index_for_hour, hr]
  have hne : round2R (0 + 6371 * Real.pi + 6371 * Real.pi) ≠ 0 := by
    unfold round2R
    have harg : (100 : ℝ) * (0 + 6371 * Real.pi + 6371 * Real.pi) =
        1274200 * Real.pi := by ring
    rw [harg]
    have hpi := Real.pi_gt_three
    have hge : (1 : ℤ) ≤ round ((1274200 : ℝ) * Real.pi) := by
      rw [round_eq]
      apply Int.le_floor.mpr
      push_cast
      nlinarith
    intro hzero
    rw [div_eq_zero_iff] at hzero
    rcases hzero with hzero | hzero
    · have : round ((1274200 : ℝ) * Real.pi) = 0 := by exact_mod_cast hzero
      omega
    · norm_num at hzero
  have hr0 : round2R 0 = 0 := by
    unfold round2R
    norm_num
  refine ⟨?_, ?_⟩
  · rw [hsim, hrec, hd1, hd2]
    exact hne
  · rw [hsim, hrec, hr0, hd1, hd2]
    exact hne

/-! ### Claim C4: the efficiency formula -/

lemma simulate_efficiency (request : SimulationRequest) :
    (simulate request).efficiency =
      round2Q
        (if 0 < (request.delivery_points.map (fun point => max 0 point.demand)).sum then
          min ((request.vehicles.map (fun vehicle => max 0 vehicle.capacity)).sum /
            (request.delivery_points.map (fun point => max 0 point.demand)).sum) 1 * 100
        else if 0 < (request.vehicles.map (fun vehicle => max 0 vehicle.capacity)).sum
          then 100 else 0) := rfl

/-- Claim C4 (amended): with total_capacity and total_demand the sums of the
request's capacities and demands with negatives clamped to zero,
`run_simulation`'s returned efficiency equals the 2-decimal rounding of
min(total_capacity / total_demand, 1) × 100 when total_demand > 0, equals
100 when total_capacity > 0 and total_demand = 0, and equals 0 when both are
zero. -/
theorem efficiency_formula_rounded (request : SimulationRequest)
    (hD : 0 < request.duration_hours) :
    run_simulation request = Except.ok (simulate request) ∧
    ((0 < (request.delivery_points.map (fun point => max 0 point.demand)).sum →
      (simulate request).efficiency =
        round2Q (min ((request.vehicles.map (fun vehicle => max 0 vehicle.capacity)).sum /
          (request.delivery_points.map (fun point => max 0 point.demand)).sum) 1 * 100)) ∧
     (0 < (request.vehicles.map (fun vehicle => max 0 vehicle.capacity)).sum →
      (request.delivery_points.map (fun point => max 0 point.demand)).sum = 0 →
      (simulate request).efficiency = 100) ∧
     ((request.vehicles.map (fun vehicle => max 0 vehicle.capacity)).sum = 0 →
      (request.delivery_points.map (fun point => max 0 point.demand)).sum = 0 →
      (simulate request).efficiency = 0)) := by
  have hD' : ¬request.duration_hours ≤ 0 := by omega
  refine ⟨by unfold run_simulation; rw [if_neg hD'], ?_, ?_, ?_⟩
  · intro hdem
    rw [simulate_efficiency, if_pos hdem]
  · intro hcap hdem
    rw [simulate_efficiency, if_neg (by rw [hdem]; norm_num), if_pos hcap]
    exact round2Q_hundred
  · intro hcap hdem
    rw [simulate_efficiency, if_neg (by rw [hdem]; norm_num),
      if_neg (by rw [hcap]; norm_num)]
    exact round2Q_zero

/-- Witness for C4 at a concrete one-vehicle request. -/
theorem efficiency_formula_rounded_witness :
    let request : SimulationRequest :=
      ⟨[⟨"v1", "v1", 30, ⟨0, 0⟩, "idle", []⟩], [⟨"p1", "p1", ⟨0, 0⟩, 20⟩], 0, 2⟩
    (0 : ℤ) < request.duration_hours ∧
    (run_simulation request = Except.ok (simulate request) ∧
     ((0 < (request.delivery_points.map (fun point => max 0 point.demand)).sum →
       (simulate request).efficiency =
         round2Q (min ((request.vehicles.map (fun vehicle => max 0 vehicle.capacity)).sum /
           (request.delivery_points.map (fun point => max 0 point.demand)).sum) 1 * 100)) ∧
      (0 < (request.vehicles.map (fun vehicle => max 0 vehicle.capacity)).sum →
       (request.delivery_points.map (fun point => max 0 point.demand)).sum = 0 →
       (simulate request).efficiency = 100) ∧
      ((request.vehicles.map (fun vehicle => max 0 vehicle.capacity)).sum = 0 →
       (request.delivery_points.map (fun point => max 0 point.demand)).sum = 0 →
       (simulate request).efficiency = 0))) :=
  ⟨by decide, efficiency_formula_rounded _ (by decide)⟩

/-- Claim C4 is false as stated for total_demand > 0: with capacity 1 and
demand 3 the exact value min(1/3, 1)·100 = 100/3 has no finite 2-decimal
representation, and the engine returns the rounded 33.33 instead. -/
theorem efficiency_rounding_counterexample :
    (simulate ⟨[⟨"v1", "v1", 1, ⟨0, 0⟩, "idle", []⟩],
      [⟨"p1", "p1", ⟨0, 0⟩, 3⟩], 0, 1⟩).efficiency ≠ min ((1 : ℚ) / 3) 1 * 100 := by
  rw [simulate_efficiency]
  simp only [List.map_cons, List.map_nil, List.sum_cons, List.sum_nil]
  norm_num [round2Q, round_eq, Int.floor_eq_iff]

/-! ### Claim C9: the engine never writes through the caller's references -/

lemma heapExtends_refl (σ : VehicleHeap) : HeapExtends σ σ :=
  ⟨le_refl _, fun _ _ => rfl⟩

lemma heapExtends_trans {σ₀ σ₁ σ₂ : VehicleHeap} (h₁ : HeapExtends σ₀ σ₁)
    (h₂ : HeapExtends σ₁ σ₂) : HeapExtends σ₀ σ₂ :=
  ⟨le_trans h₁.1 h₂.1, fun a ha => by
    rw [h₂.2 a (lt_of_lt_of_le ha h₁.1), h₁.2 a ha]⟩

lemma halloc_extends (σ : VehicleHeap) (v : Vehicle) : HeapExtends σ (halloc σ v).1 :=
  ⟨Nat.le_succ _, fun a ha => Function.update_noteq (Nat.ne_of_lt ha) _ _⟩

lemma hwrite_extends {σ₀ σ : VehicleHeap} (a : ℕ) (v : Vehicle)
    (h : HeapExtends σ₀ σ) (ha : σ₀.next ≤ a) : HeapExtends σ₀ (hwrite σ a v) :=
  ⟨h.1, fun b hb => by
    show Function.update σ.cells a v b = σ₀.cells b
    rw [Function.update_noteq (Nat.ne_of_lt (lt_of_lt_of_le hb ha)), h.2 b hb]⟩

lemma stepVehicleH_extends (D : ℤ) (hour : ℕ) (acc : HeapTickState) (ref : ℕ)
    {σ₀ : VehicleHeap} (h : HeapExtends σ₀ acc.heap) :
    HeapExtends σ₀ (stepVehicleH D hour acc ref).heap := by
  have hmid : HeapExtends σ₀ (halloc acc.heap (acc.heap.cells ref)).1 :=
    heapExtends_trans h (halloc_extends _ _)
  have hfresh : σ₀.next ≤ (halloc acc.heap (acc.heap.cells ref)).2 := h.1
  unfold stepVehicleH
  dsimp only
  split
  · exact hwrite_extends _ _ hmid hfresh
  · exact hwrite_extends _ _ hmid hfresh

lemma foldl_stepVehicleH_extends (D : ℤ) (hour : ℕ) :
    ∀ (refs : List ℕ) (acc : HeapTickState) {σ₀ : VehicleHeap},
      HeapExtends σ₀ acc.heap →
      HeapExtends σ₀ (refs.foldl (stepVehicleH D hour) acc).heap := by
  intro refs
  induction refs with
  | nil => intro acc σ₀ h; exact h
  | cons r rs ih =>
      intro acc σ₀ h
      rw [List.foldl_cons]
      exact ih _ (stepVehicleH_extends D hour acc r h)

lemma copyVehicles_fold_extends :
    ∀ (refs : List ℕ) (p : VehicleHeap × List ℕ) {σ₀ : VehicleHeap},
      HeapExtends σ₀ p.1 →
      HeapExtends σ₀ (refs.foldl
        (fun acc r =>
          let a := halloc acc.1 (acc.1.cells r)
          (a.1, acc.2 ++ [a.2])) p).1 := by
  intro refs
  induction refs with
  | nil => intro p σ₀ h; exact h
  | cons r rs ih =>
      intro p σ₀ h
      rw [List.foldl_cons]
      exact ih _ (heapExtends_trans h (halloc_extends _ _))

lemma copyVehicles_extends (σ : VehicleHeap) (refs : List ℕ) {σ₀ : VehicleHeap}
    (h : HeapExtends σ₀ σ) : HeapExtends σ₀ (copyVehicles σ refs).1 :=
  copyVehicles_fold_extends refs (σ, []) h

lemma runTickH_extends (pheap : ℕ → DeliveryPoint) (request : SimulationRequestRef)
    (state : HeapSimState) (hour : ℕ) {σ₀ : VehicleHeap}
    (h : HeapExtends σ₀ state.heap) :
    HeapExtends σ₀ (runTickH pheap request state hour).heap := by
  show HeapExtends σ₀ (copyVehicles
    (state.simulated_refs.foldl (stepVehicleH request.duration_hours hour)
      ⟨[], state.last_locations, state.total_distance, state.heap⟩).heap
    (state.simulated_refs.foldl (stepVehicleH request.duration_hours hour)
      ⟨[], state.last_locations, state.total_distance, state.heap⟩).step_refs).1
  exact copyVehicles_extends _ _
    (foldl_stepVehicleH_extends request.duration_hours hour state.simulated_refs _ h)

lemma foldl_runTickH_extends (pheap : ℕ → DeliveryPoint)
    (request : SimulationRequestRef) :
    ∀ (hs : List ℕ) (state : HeapSimState) {σ₀ : VehicleHeap},
      HeapExtends σ₀ state.heap →
      HeapExtends σ₀ (hs.foldl (runTickH pheap request) state).heap := by
  intro hs
  induction hs with
  | nil => intro state σ₀ h; exact h
  | cons hhead hsrest ih =>
      intro state σ₀ h
      rw [List.foldl_cons]
      exact ih _ (runTickH_extends pheap request state hhead h)

/-- Claim C9: `run_simulation` never mutates its caller-supplied inputs: for
every request whose vehicle references are live cells of the store, the call
leaves every one of those cells (the caller's `Vehicle` objects with their
`current_location`, `status` and `route`) unchanged, and the delivery points
are returned untouched; the engine steps only the fresh deep copies it
allocates on entry. -/
theorem run_simulation_frame (σ : VehicleHeap) (pheap : ℕ → DeliveryPoint)
    (request : SimulationRequestRef)
    (hvalid : ∀ r ∈ request.vehicles, r < σ.next) :
    (∀ r ∈ request.vehicles,
      (run_simulationH σ pheap request).1.cells r = σ.cells r) ∧
    (run_simulationH σ pheap request).2.1 = pheap := by
  by_cases hD : request.duration_hours ≤ 0
  · unfold run_simulationH
    rw [if_pos hD]
    exact ⟨fun r _ => rfl, rfl⟩
  · unfold run_simulationH
    rw [if_neg hD]
    refine ⟨?_, rfl⟩
    intro r hr
    show ((List.range request.duration_hours.toNat).foldl (runTickH pheap request)
      ⟨(copyVehicles σ request.vehicles).2,
        initialLastLocationsH (copyVehicles σ request.vehicles).1
          (copyVehicles σ request.vehicles).2,
        0, [], (copyVehicles σ request.vehicles).1⟩).heap.cells r = σ.cells r
    have hext : HeapExtends σ ((List.range request.duration_hours.toNat).foldl
        (runTickH pheap request)
        ⟨(copyVehicles σ request.vehicles).2,
          initialLastLocationsH (copyVehicles σ request.vehicles).1
            (copyVehicles σ request.vehicles).2,
          0, [], (copyVehicles σ request.vehicles).1⟩).heap :=
      foldl_runTickH_extends pheap request _ _
        (copyVehicles_extends σ request.vehicles (heapExtends_refl σ))
    exact hext.2 r (hvalid r hr)

/-- Witness for C9: a store of two live vehicle cells, both passed in the
request. -/
theorem run_simulation_frame_witness :
    let σ : VehicleHeap := ⟨fun _ => default, 2⟩
    let pheap : ℕ → DeliveryPoint := fun _ => ⟨"p", "p", ⟨0, 0⟩, 1⟩
    let request : SimulationRequestRef := ⟨[0, 1], [], 0, 1⟩
    (∀ r ∈ request.vehicles, r < σ.next) ∧
    ((∀ r ∈ request.vehicles,
       (run_simulationH σ pheap request).1.cells r = σ.cells r) ∧
     (run_simulationH σ pheap request).2.1 = pheap) :=
  ⟨by decide, run_simulation_frame _ _ _ (by decide)⟩

/-! ### Claim C3: monotone route index with exact terminal arrival -/

/-- Claim C3: for a route of length L ≥ 2 and a duration D ≥ 1, the route
index selected at hour h is monotonically non-decreasing in h, reaches L−1
exactly when h = D−1 (for D = 1 this is immediate at h = 0), and for
L ≤ 1 the function always returns 0. -/
theorem route_index_monotone_terminal (L D h h' : ℤ) (hL : 2 ≤ L) (hD : 1 ≤ D)
    (hh0 : 0 ≤ h) (hhD : h < D) :
    (h ≤ h' → route_index_for_hour L h D ≤ route_index_for_hour L h' D) ∧
    (route_index_for_hour L h D = L - 1 ↔ h = D - 1) ∧
    (∀ L₂ h₂ D₂ : ℤ, L₂ ≤ 1 → route_index_for_hour L₂ h₂ D₂ = 0) := by
  refine ⟨fun hh => rifh_mono hh0 hh, rifh_last_iff hL hD hh0 hhD, ?_⟩
  intro L₂ h₂ D₂ hL₂
  unfold route_index_for_hour
  exact if_pos hL₂

/-- Witness for C3 at L = 5, D = 3, h = 1, h' = 2. -/
theorem route_index_monotone_terminal_witness :
    (2 : ℤ) ≤ 5 ∧ (1 : ℤ) ≤ 3 ∧ (0 : ℤ) ≤ 1 ∧ (1 : ℤ) < 3 ∧
    (((1 : ℤ) ≤ 2 → route_index_for_hour 5 1 3 ≤ route_index_for_hour 5 2 3) ∧
     (route_index_for_hour 5 1 3 = 5 - 1 ↔ (1 : ℤ) = 3 - 1) ∧
     (∀ L₂ h₂ D₂ : ℤ, L₂ ≤ 1 → route_index_for_hour L₂ h₂ D₂ = 0)) :=
  ⟨by decide, by decide, by decide, by decide,
   route_index_monotone_terminal 5 3 1 2 (by decide) (by decide) (by decide) (by decide)⟩

/-! ### Claim C10: the selected index is always a valid list index -/

/-- Claim C10: for route_length ≥ 1, hour ≥ 0 and duration ≥ 1 the returned
index lies in [0, route_length − 1]; consequently the engine's list access
`route[route_index]` for a vehicle with a non-empty route is always in
bounds. -/
theorem route_index_in_bounds (L h D : ℤ) (hL : 1 ≤ L) (hh0 : 0 ≤ h)
    (hD : 1 ≤ D) :
    0 ≤ route_index_for_hour L h D ∧ route_index_for_hour L h D ≤ L - 1 ∧
    ∀ (route : List Location) (hour : ℕ) (dur : ℤ), route.isEmpty = false →
      (route_index_for_hour (route.length : ℤ) (hour : ℤ) dur).toNat < route.length := by
  refine ⟨rifh_nonneg h D hL, rifh_le_pred L h D hL, ?_⟩
  intro route hour dur hne
  have hlen : 1 ≤ (route.length : ℤ) := by
    have : route ≠ [] := by
      intro hnil
      rw [hnil] at hne
      simp at hne
    have : 0 < route.length := List.length_pos.mpr this
    exact_mod_cast this
  have h1 := rifh_nonneg (L := (route.length : ℤ)) (hour : ℤ) dur hlen
  have h2 := rifh_le_pred (route.length : ℤ) (hour : ℤ) dur hlen
  omega

/-- Witness for C10 at L = 4, h = 7, D = 2 (and the concrete route of one
point for the in-bounds clause). -/
theorem route_index_in_bounds_witness :
    (1 : ℤ) ≤ 4 ∧ (0 : ℤ) ≤ 7 ∧ (1 : ℤ) ≤ 2 ∧
    (0 ≤ route_index_for_hour 4 7 2 ∧ route_index_for_hour 4 7 2 ≤ 4 - 1 ∧
     ∀ (route : List Location) (hour : ℕ) (dur : ℤ), route.isEmpty = false →
       (route_index_for_hour (route.length : ℤ) (hour : ℤ) dur).toNat < route.length) :=
  ⟨by decide, by decide, by decide,
   route_index_in_bounds 4 7 2 (by decide) (by decide) (by decide)⟩

end DigitalTwin
